import Mathlib

/-!
Shallow embedding of the Taste-of-Weather front-end (src/types.ts,
src/services/geminiService.ts, src/App.tsx).

The external generative-AI service is modelled by explicit outcome values:
an API call either rejects (`ApiOutcome.thrown`) or resolves with a response
text (`ApiOutcome.text`).  The JavaScript builtin JSON.parse is modelled by
an arbitrary function `parse : String → Option Json` (none = SyntaxError);
theorems quantify over it.  JSON numbers are rationals; JS Math.round is
floor of x + 1/2, which matches its round-half-up semantics.
-/

/-- JSON values, as produced by JSON.parse. -/
inductive Json where
  | null : Json
  | bool (b : Bool) : Json
  | num (q : Rat) : Json
  | str (s : String) : Json
  | arr (elems : List Json) : Json
  | obj (fields : List (String × Json)) : Json

/-- Property access `j.k` on a parsed JSON value: a field of an object, or
undefined (`none`) otherwise.  (In JS, access on parsed `null` throws a
TypeError; in every use below that thrown error is caught by the enclosing
try/catch and lands in the same branch as `none`, so `none` is faithful.) -/
def Json.get? : Json → String → Option Json
  | .obj fields, k => List.lookup k fields
  | _, _ => none

/-- JS truthiness of a defined value ("" , 0, false, null are falsy). -/
def jsTruthy : Json → Bool
  | .null => false
  | .bool b => b
  | .num q => if q = 0 then false else true
  | .str s => if s = "" then false else true
  | .arr _ => true
  | .obj _ => true

/-- JS truthiness where `none` stands for undefined. -/
def jsTruthyOpt : Option Json → Bool
  | none => false
  | some v => jsTruthy v

/-- Outcome of one awaited call to the generative-AI API: the promise
rejected, or it resolved and `response.text` is the given string. -/
inductive ApiOutcome where
  | thrown : ApiOutcome
  | text (s : String) : ApiOutcome

/-- JS Math.round: round half toward positive infinity. -/
def jsRound (q : Rat) : Int := Rat.floor (q + 1 / 2)

/-- WeatherCondition enum of src/types.ts (values are the Korean labels). -/
inductive WeatherCondition where
  | sunny : WeatherCondition
  | rainy : WeatherCondition
  | cloudy : WeatherCondition
  | snowy : WeatherCondition
  | hot : WeatherCondition
  | cold : WeatherCondition
deriving DecidableEq

/-- The string value of each WeatherCondition enum member. -/
def WeatherCondition.toKorean : WeatherCondition → String
  | .sunny => "맑음"
  | .rainy => "비"
  | .cloudy => "흐림"
  | .snowy => "눈"
  | .hot => "더움"
  | .cold => "추움"

/-- Object.values(WeatherCondition), the 6 valid condition strings. -/
def validWeathers : List String :=
  ["맑음", "비", "흐림", "눈", "더움", "추움"]

/-- The membership test `validWeathers.includes(s)` together with the
unchecked cast `s as WeatherCondition` of geminiService.ts, as one partial
decoding function. -/
def WeatherCondition.fromKorean? (s : String) : Option WeatherCondition :=
  if s = "맑음" then some .sunny
  else if s = "비" then some .rainy
  else if s = "흐림" then some .cloudy
  else if s = "눈" then some .snowy
  else if s = "더움" then some .hot
  else if s = "추움" then some .cold
  else none

/-- WeatherInfo of src/types.ts. -/
structure WeatherInfo where
  condition : WeatherCondition
  temperature : Int
deriving DecidableEq

/-- The hardcoded fallback weather of getWeatherFromCoordinates. -/
def fallbackWeather : WeatherInfo := { condition := .cloudy, temperature := 20 }

/-- The two sequential regex replaces of getWeatherFromCoordinates:
replace a leading three-backtick json fence line, then a trailing
three-backtick fence, each only when present (anchored regexes). -/
def stripJsonFence (s : String) : String :=
  let s1 := if s.startsWith "```json\n" then s.drop 8 else s
  if s1.endsWith "\n```" then s1.dropRight 4 else s1

/-- getWeatherFromCoordinates of src/services/geminiService.ts.  The
latitude/longitude arguments feed only the prompt string sent to the API and
cannot affect control flow, so they are elided; the call outcome and
JSON.parse are the explicit environment.  Every failure path (rejected call,
parse error, missing or non-string condition, condition outside the 6 valid
strings, non-numeric temperature) returns `fallbackWeather`; the function is
total, i.e. it never rejects. -/
def getWeatherFromCoordinates (parse : String → Option Json)
    (outcome : ApiOutcome) : WeatherInfo :=
  match outcome with
  | .thrown => fallbackWeather
  | .text t =>
    let jsonString := stripJsonFence t.trim
    match parse jsonString with
    | none => fallbackWeather
    | some parsed =>
      match parsed.get? "condition", parsed.get? "temperature" with
      | some (.str cond), some (.num temp) =>
        match WeatherCondition.fromKorean? cond with
        | some c => { condition := c, temperature := jsRound temp }
        | none => fallbackWeather
      | _, _ => fallbackWeather

/-- The single error message every failure of getFoodRecommendation is
rethrown as (the catch block replaces all inner errors with it). -/
def recommendationFailureMessage : String :=
  "Failed to get food recommendation from Gemini API."

/-- The shallow validation of the first array element in
getFoodRecommendation: truthy foodName, truthy reason, defined familiarity
(the strict comparison with undefined admits any defined value, null
included). -/
def firstItemValid (firstItem : Json) : Bool :=
  jsTruthyOpt (firstItem.get? "foodName") &&
  jsTruthyOpt (firstItem.get? "reason") &&
  (firstItem.get? "familiarity").isSome

/-- getFoodRecommendation of src/services/geminiService.ts, response side.
The weather, meal time, preference and familiarity-table arguments feed only
the prompt strings and cannot affect the validation or the returned value,
so they are elided.  The parsed response must be a non-empty array whose
first element passes `firstItemValid`; it is then returned unchanged
(`parsedResponse as Recommendation[]` is an unchecked cast, so the elements
stay arbitrary JSON values here).  All failures are rethrown as the one
generic message. -/
def getFoodRecommendation (parse : String → Option Json)
    (outcome : ApiOutcome) : Except String (List Json) :=
  match outcome with
  | .thrown => .error recommendationFailureMessage
  | .text jsonString =>
    match parse jsonString with
    | none => .error recommendationFailureMessage
    | some parsed =>
      match parsed with
      | .arr [] => .error recommendationFailureMessage
      | .arr (firstItem :: rest) =>
        if firstItemValid firstItem then .ok (firstItem :: rest)
        else .error recommendationFailureMessage
      | _ => .error recommendationFailureMessage

/-- MealTime enum of src/types.ts. -/
inductive MealTime where
  | breakfast : MealTime
  | lunch : MealTime
  | dinner : MealTime
  | snack : MealTime
deriving DecidableEq

/-- FoodPreference enum of src/types.ts. -/
inductive FoodPreference where
  | spicy : FoodPreference
  | mild : FoodPreference
  | soup : FoodPreference
  | light : FoodPreference
  | heavy : FoodPreference
deriving DecidableEq

/-- Recommendation of src/types.ts (the typed view the App consumes). -/
structure Recommendation where
  foodName : String
  reason : String
  familiarity : Int
deriving DecidableEq

/-- FinalRecommendation of src/types.ts: a Recommendation plus imageUrl. -/
structure FinalRecommendation extends Recommendation where
  imageUrl : String
deriving DecidableEq

/-- AppStep of src/types.ts. -/
inductive AppStep where
  | welcome : AppStep
  | gettingWeather : AppStep
  | manualWeather : AppStep
  | preferences : AppStep
  | loading : AppStep
  | result : AppStep
  | error : AppStep
deriving DecidableEq

/-- The React state of the App component (src/App.tsx lines 62-70).  The
familiarity table, a JS record keyed by food name, is modelled by its lookup
function. -/
structure AppState where
  step : AppStep
  weather : Option WeatherInfo
  mealTime : Option MealTime
  foodPreference : Option FoodPreference
  recommendations : Option (List FinalRecommendation)
  error : Option String
  familiarityRatings : String → Option Int
  currentUserRating : Option Int

/-- Outcome of the geolocation probe in the gettingWeather effect:
navigator.geolocation missing, getCurrentPosition reporting an error
(permission denied and the like), or a position fix.  The coordinates of a
fix feed only the prompt string, so they are elided. -/
inductive GeoOutcome where
  | unsupported : GeoOutcome
  | geoError : GeoOutcome
  | position : GeoOutcome

/-- The gettingWeather useEffect of src/App.tsx (lines 76-102).  On a
position fix it awaits getWeatherFromCoordinates; that function is total
(its own try/catch returns `fallbackWeather` on every failure), so the
surrounding catch in App.tsx, which would move to manualWeather, is
unreachable and the flow always stores the returned weather and moves to
preferences.  No branch touches the error field. -/
def gettingWeatherStep (geo : GeoOutcome) (parse : String → Option Json)
    (api : ApiOutcome) (s : AppState) : AppState :=
  if s.step = AppStep.gettingWeather then
    match geo with
    | .unsupported => { s with step := .manualWeather }
    | .geoError => { s with step := .manualWeather }
    | .position =>
      let weatherInfo := getWeatherFromCoordinates parse api
      { s with weather := some weatherInfo, step := .preferences }
  else s

/-- handleManualWeatherSelect of src/App.tsx (lines 104-122): the switch
assigns a fixed temperature per condition, defaulting to 20. -/
def handleManualWeatherSelect (s : AppState) (condition : WeatherCondition) :
    AppState :=
  let temperature : Int :=
    match condition with
    | .hot => 30
    | .cold => 5
    | .snowy => -2
    | .rainy => 15
    | .sunny => 20
    | .cloudy => 20
  { s with weather := some { condition := condition, temperature := temperature },
           step := .preferences }

/-- The awaited result of getFoodRecommendation as seen by the App: the
promise rejected, or resolved with a list of recommendations (the unchecked
cast in the service is modelled by the typed payload). -/
inductive RecOutcome where
  | thrown : RecOutcome
  | ok (recs : List Recommendation) : RecOutcome

/-- The awaited result of generateFoodImage as seen by the App. -/
inductive ImgOutcome where
  | thrown : ImgOutcome
  | ok (url : String) : ImgOutcome

/-- The localized error message handlePreferencesSubmit sets on failure. -/
def submitErrorMessage : String :=
  "추천을 생성하는 데 실패했습니다. 잠시 후 다시 시도해 주세요."

/-- JS Array.prototype.map with the element and its index, the index
starting at the given value. -/
def jsMapWithIndexFrom (f : α → Nat → β) (i : Nat) : List α → List β
  | [] => []
  | a :: as => f a i :: jsMapWithIndexFrom f (i + 1) as

/-- JS Array.prototype.map with the element and its index. -/
def jsMapWithIndex (f : α → Nat → β) (l : List α) : List β :=
  jsMapWithIndexFrom f 0 l

/-- handlePreferencesSubmit of src/App.tsx (lines 124-153).  The guard
returns unchanged when mealTime or foodPreference is null.  Otherwise step
becomes loading and error is cleared; a rejected recommendation call or an
empty list lands in the catch; on a non-empty list currentUserRating is set
to the first familiarity before the image call, so a rejected image call
leaves that write behind; on success each recommendation gets imageUrl,
the generated URL at index 0 and the empty string elsewhere. -/
def handlePreferencesSubmit (s : AppState) (rec : RecOutcome)
    (img : ImgOutcome) : AppState :=
  match s.mealTime, s.foodPreference with
  | some _, some _ =>
    let s1 := { s with step := AppStep.loading, error := none }
    match rec with
    | .thrown => { s1 with error := some submitErrorMessage, step := .error }
    | .ok [] => { s1 with error := some submitErrorMessage, step := .error }
    | .ok (primary :: rest) =>
      let s2 := { s1 with currentUserRating := some primary.familiarity }
      match img with
      | .thrown => { s2 with error := some submitErrorMessage, step := .error }
      | .ok imageUrl =>
        let finals := jsMapWithIndex
          (fun rec0 index =>
            { toRecommendation := rec0,
              imageUrl := if index = 0 then imageUrl else "" })
          (primary :: rest)
        { s2 with recommendations := some finals, step := .result }
  | _, _ => s

/-- resetAndSaveRating of src/App.tsx (lines 155-171): when a non-empty
recommendation list and a non-null rating are present, the table gains the
rating under the first foodName (JS object spread overwrites that one key);
then every transient session field is reset. -/
def resetAndSaveRating (s : AppState) : AppState :=
  let ratings :=
    match s.recommendations, s.currentUserRating with
    | some (primary :: _), some rating =>
      fun k => if k = primary.foodName then some rating
               else s.familiarityRatings k
    | _, _ => s.familiarityRatings
  { step := .welcome, weather := none, mealTime := none, foodPreference := none,
    recommendations := none, currentUserRating := none, error := none,
    familiarityRatings := ratings }

/-- resetFromError of src/App.tsx (lines 173-181): back to welcome with
every transient session field null; the familiarity table is untouched. -/
def resetFromError (s : AppState) : AppState :=
  { s with step := .welcome, weather := none, mealTime := none,
           foodPreference := none, recommendations := none,
           currentUserRating := none, error := none }

/-! ### Concrete fixtures used by witnesses and counterexamples -/

/-- An empty familiarity table. -/
def emptyRatings : String → Option Int := fun _ => none

/-- A JSON.parse model that always fails. -/
def noParse : String → Option Json := fun _ => none

/-- A state sitting in the gettingWeather step. -/
def gettingWeatherState : AppState :=
  { step := .gettingWeather, weather := none, mealTime := none,
    foodPreference := none, recommendations := none, error := none,
    familiarityRatings := emptyRatings, currentUserRating := none }

/-- A state ready to submit preferences. -/
def submitState : AppState :=
  { step := .preferences, weather := none, mealTime := some MealTime.lunch,
    foodPreference := some FoodPreference.spicy, recommendations := none,
    error := none, familiarityRatings := emptyRatings,
    currentUserRating := none }

/-- A well-formed recommendation JSON object carrying familiarity 4. -/
def itemOne : Json :=
  Json.obj [("foodName", Json.str "비빔밥"), ("reason", Json.str "든든함"),
            ("familiarity", Json.num 4)]

/-- A parse model resolving to an array with the single element `itemOne`. -/
def parseOne : String → Option Json := fun _ => some (Json.arr [itemOne])

/-- A well-formed recommendation JSON object with an arbitrary familiarity
value. -/
def familiarityProbeItem (q : Rat) : Json :=
  Json.obj [("foodName", Json.str "비빔밥"), ("reason", Json.str "든든함"),
            ("familiarity", Json.num q)]

/-- A recommendation JSON object whose familiarity is 99, outside 1..5. -/
def item99 : Json := familiarityProbeItem 99

/-- A parse model resolving to an array with the single element `item99`. -/
def parse99 : String → Option Json := fun _ => some (Json.arr [item99])

/-- A typed recommendation fixture. -/
def recBibimbap : Recommendation :=
  { foodName := "비빔밥", reason := "든든함", familiarity := 4 }

/-- A second typed recommendation fixture. -/
def recKimchi : Recommendation :=
  { foodName := "김치찌개", reason := "얼큰함", familiarity := 5 }

/-- A fixture with an image attached. -/
def finalBibimbap : FinalRecommendation :=
  { toRecommendation := recBibimbap, imageUrl := "data:image/jpeg;base64,x" }

/-- A state sitting in the result step with one recommendation and an
adjusted rating of 3. -/
def resultState : AppState :=
  { step := .result, weather := none, mealTime := some MealTime.lunch,
    foodPreference := some FoodPreference.spicy,
    recommendations := some [finalBibimbap], error := none,
    familiarityRatings := emptyRatings, currentUserRating := some 3 }

/-! ### Helper lemmas -/

theorem jsMapWithIndexFrom_length (f : α → Nat → β) (i : Nat) (l : List α) :
    (jsMapWithIndexFrom f i l).length = l.length := by
  induction l generalizing i with
  | nil => rfl
  | cons a as ih => simp [jsMapWithIndexFrom, ih]

theorem jsMapWithIndexFrom_get (f : α → Nat → β) (l : List α) (i k : Nat)
    (h : k < (jsMapWithIndexFrom f i l).length) (hk : k < l.length) :
    (jsMapWithIndexFrom f i l).get ⟨k, h⟩ = f (l.get ⟨k, hk⟩) (i + k) := by
  induction l generalizing i k with
  | nil => exact absurd hk (Nat.not_lt_zero k)
  | cons a as ih =>
    cases k with
    | zero => rfl
    | succ k =>
      have harith : i + (k + 1) = (i + 1) + k := by omega
      rw [harith]
      exact ih (i + 1) k _ (Nat.lt_of_succ_lt_succ hk)

/-- Success characterization of getFoodRecommendation: it resolves with `l`
exactly when the response parsed to a non-empty JSON array equal to `l`
whose first element passes the shallow check. -/
theorem getFoodRecommendation_ok_iff (parse : String → Option Json)
    (outcome : ApiOutcome) (l : List Json) :
    getFoodRecommendation parse outcome = Except.ok l ↔
      ∃ t x xs, outcome = ApiOutcome.text t
        ∧ parse t = some (Json.arr (x :: xs))
        ∧ firstItemValid x = true ∧ l = x :: xs := by
  cases outcome with
  | thrown => simp [getFoodRecommendation]
  | text t =>
    cases hp : parse t with
    | none => simp [getFoodRecommendation, hp]
    | some parsed =>
      cases parsed with
      | null => simp [getFoodRecommendation, hp]
      | bool b => simp [getFoodRecommendation, hp]
      | num q => simp [getFoodRecommendation, hp]
      | str s => simp [getFoodRecommendation, hp]
      | obj fields => simp [getFoodRecommendation, hp]
      | arr elems =>
        cases elems with
        | nil => simp [getFoodRecommendation, hp]
        | cons x xs =>
          cases hval : firstItemValid x with
          | true =>
            simp only [getFoodRecommendation, hp, hval, if_true]
            constructor
            · intro h
              cases h
              exact ⟨t, x, xs, rfl, hp, hval, rfl⟩
            · rintro ⟨t', x', xs', ht, hp', hv', hl⟩
              cases ht
              rw [hp] at hp'
              cases hp'
              cases hl
              rfl
          | false =>
            simp only [getFoodRecommendation, hp, hval, if_false]
            constructor
            · intro h
              cases h
            · rintro ⟨t', x', xs', ht, hp', hv', hl⟩
              cases ht
              rw [hp] at hp'
              cases hp'
              rw [hval] at hv'
              cases hv'

/-! ### Claim theorems -/

/-- C1 counterexample: a network error in the weather-inference call (the
call rejects) during the gettingWeather flow does NOT lead to the manual
weather selection state; the flow moves to preferences, because
getWeatherFromCoordinates absorbs the failure into the fallback value. -/
theorem c1_network_error_goes_to_preferences :
    (gettingWeatherStep GeoOutcome.position noParse ApiOutcome.thrown
        gettingWeatherState).step = AppStep.preferences
  ∧ AppStep.preferences ≠ AppStep.manualWeather := by
  constructor
  · rfl
  · decide

/-- C1 (amended): during the gettingWeather flow, an unsupported geolocation
API or a geolocation error leads to manualWeather; with a position fix the
flow always reaches preferences, storing the weather the inference call
returned — a network/parse failure there is absorbed into the fallback
value {cloudy, 20} instead of reaching manualWeather; no branch sets the
error field. -/
theorem c1_weather_resolution_fallback_amended (geo : GeoOutcome)
    (parse : String → Option Json) (api : ApiOutcome) (s : AppState)
    (h : s.step = AppStep.gettingWeather) :
    ((geo = GeoOutcome.unsupported ∨ geo = GeoOutcome.geoError) →
       (gettingWeatherStep geo parse api s).step = AppStep.manualWeather)
  ∧ (geo = GeoOutcome.position →
       (gettingWeatherStep geo parse api s).step = AppStep.preferences
       ∧ (gettingWeatherStep geo parse api s).weather
           = some (getWeatherFromCoordinates parse api))
  ∧ (geo = GeoOutcome.position → api = ApiOutcome.thrown →
       (gettingWeatherStep geo parse api s).weather = some fallbackWeather)
  ∧ (gettingWeatherStep geo parse api s).error = s.error := by
  refine ⟨?_, ?_, ?_, ?_⟩
  · rintro (rfl | rfl) <;> simp [gettingWeatherStep, h]
  · rintro rfl
    exact ⟨by simp [gettingWeatherStep, h], by simp [gettingWeatherStep, h]⟩
  · rintro rfl rfl
    simp [gettingWeatherStep, h, getWeatherFromCoordinates]
  · cases geo <;> simp [gettingWeatherStep, h]

/-- C1 witness: with an unsupported geolocation API the concrete state in
the gettingWeather step moves to manualWeather. -/
theorem c1_weather_resolution_fallback_amended_witness :
    (gettingWeatherStep GeoOutcome.unsupported noParse ApiOutcome.thrown
        gettingWeatherState).step = AppStep.manualWeather :=
  (c1_weather_resolution_fallback_amended GeoOutcome.unsupported noParse
      ApiOutcome.thrown gettingWeatherState rfl).1 (Or.inl rfl)

/-- C2 counterexample: getFoodRecommendation resolves successfully on a
response that parses to a well-formed array of a single element, so a
successful resolution does not contain exactly 5 recommendations. -/
theorem c2_success_with_one_item :
    getFoodRecommendation parseOne (ApiOutcome.text "resp")
        = Except.ok [itemOne]
  ∧ ([itemOne] : List Json).length ≠ 5 := by
  constructor
  · rfl
  · decide

/-- C2 (amended): whenever getFoodRecommendation resolves successfully, the
returned list is the parsed response array returned unchanged; it is
non-empty and its first element passes the shallow shape check, but its
length is whatever the response contained — the count of 5 is requested
from the model, not enforced. -/
theorem c2_success_shape_amended (parse : String → Option Json)
    (outcome : ApiOutcome) (l : List Json)
    (h : getFoodRecommendation parse outcome = Except.ok l) :
    (∃ t, outcome = ApiOutcome.text t ∧ parse t = some (Json.arr l))
  ∧ ∃ x xs, l = x :: xs ∧ firstItemValid x = true := by
  rcases (getFoodRecommendation_ok_iff parse outcome l).1 h
    with ⟨t, x, xs, ho, hp, hv, hl⟩
  subst ho
  subst hl
  exact ⟨⟨t, rfl, hp⟩, x, xs, rfl, hv⟩

/-- C2 witness: the single-element success run, fed through the amended
theorem. -/
theorem c2_success_shape_amended_witness :
    (∃ t, ApiOutcome.text "resp" = ApiOutcome.text t
      ∧ parseOne t = some (Json.arr [itemOne]))
  ∧ ∃ x xs, ([itemOne] : List Json) = x :: xs ∧ firstItemValid x = true :=
  c2_success_shape_amended parseOne (ApiOutcome.text "resp") [itemOne] rfl

/-- C8 counterexample: a response whose only element carries familiarity 99
is returned successfully, so returned familiarity values are not integers
between 1 and 5. -/
theorem c8_familiarity_out_of_range_returned :
    getFoodRecommendation parse99 (ApiOutcome.text "resp")
        = Except.ok [item99]
  ∧ Json.get? item99 "familiarity" = some (Json.num 99)
  ∧ ¬((1 : Rat) ≤ 99 ∧ (99 : Rat) ≤ 5) := by
  refine ⟨rfl, rfl, ?_⟩
  rintro ⟨-, h⟩
  norm_num at h

/-- C8 (amended): getFoodRecommendation applies no range validation to
familiarity values: every rational value q is returned verbatim by some
successful run, and the only familiarity guarantee a successful resolution
gives is that the first element has a defined familiarity field. -/
theorem c8_familiarity_passthrough_amended (q : Rat) :
    (∃ parse : String → Option Json, ∃ t : String,
       Json.get? (familiarityProbeItem q) "familiarity" = some (Json.num q)
       ∧ getFoodRecommendation parse (ApiOutcome.text t)
           = Except.ok [familiarityProbeItem q])
  ∧ ∀ parse outcome l, getFoodRecommendation parse outcome = Except.ok l →
      ∃ x xs, l = x :: xs ∧ (Json.get? x "familiarity").isSome = true := by
  constructor
  · exact ⟨fun _ => some (Json.arr [familiarityProbeItem q]), "resp", rfl, rfl⟩
  · intro parse outcome l h
    rcases (getFoodRecommendation_ok_iff parse outcome l).1 h
      with ⟨t, x, xs, ho, hp, hv, hl⟩
    refine ⟨x, xs, hl, ?_⟩
    have hv' := hv
    simp only [firstItemValid, Bool.and_eq_true] at hv'
    exact hv'.2

theorem jsMapWithIndex_length (f : α → Nat → β) (l : List α) :
    (jsMapWithIndex f l).length = l.length :=
  jsMapWithIndexFrom_length f 0 l

theorem jsMapWithIndex_get (f : α → Nat → β) (l : List α) (k : Nat)
    (h : k < (jsMapWithIndex f l).length) (hk : k < l.length) :
    (jsMapWithIndex f l).get ⟨k, h⟩ = f (l.get ⟨k, hk⟩) k := by
  have h0 := jsMapWithIndexFrom_get f l 0 k h hk
  simpa [jsMapWithIndex] using h0

/-- C3: with a non-empty recommendation list and a successful image call,
handlePreferencesSubmit reaches the result state, and the stored list
carries the generated URL exactly on the first entry, the empty string on
every other entry, each entry keeping its recommendation fields. -/
theorem c3_result_state_single_image (s : AppState) (primary : Recommendation)
    (rest : List Recommendation) (url : String) (mt : MealTime)
    (fp : FoodPreference) (hm : s.mealTime = some mt)
    (hf : s.foodPreference = some fp) :
    (handlePreferencesSubmit s (RecOutcome.ok (primary :: rest))
        (ImgOutcome.ok url)).step = AppStep.result
  ∧ ∃ finals : List FinalRecommendation,
      (handlePreferencesSubmit s (RecOutcome.ok (primary :: rest))
          (ImgOutcome.ok url)).recommendations = some finals
      ∧ finals.length = (primary :: rest).length
      ∧ ∀ i : Nat, ∀ hi : i < finals.length,
          ∀ hi2 : i < (primary :: rest).length,
          (finals.get ⟨i, hi⟩).imageUrl = (if i = 0 then url else "")
          ∧ (finals.get ⟨i, hi⟩).toRecommendation
              = (primary :: rest).get ⟨i, hi2⟩ := by
  constructor
  · simp [handlePreferencesSubmit, hm, hf]
  · refine ⟨jsMapWithIndex
        (fun rec0 index =>
          { toRecommendation := rec0,
            imageUrl := if index = 0 then url else "" })
        (primary :: rest), ?_, jsMapWithIndex_length _ _, ?_⟩
    · simp [handlePreferencesSubmit, hm, hf]
    · intro i hi hi2
      rw [jsMapWithIndex_get _ _ _ hi hi2]
      exact ⟨rfl, rfl⟩

/-- C3 witness: a concrete two-recommendation success lands in the result
state. -/
theorem c3_result_state_single_image_witness :
    (handlePreferencesSubmit submitState
        (RecOutcome.ok [recBibimbap, recKimchi])
        (ImgOutcome.ok "data:image/jpeg;base64,x")).step = AppStep.result :=
  (c3_result_state_single_image submitState recBibimbap [recKimchi]
      "data:image/jpeg;base64,x" MealTime.lunch FoodPreference.spicy rfl
      rfl).1

/-- C4: every failure of the preference-submission flow (recommendation call
rejected, empty list, or image call rejected) sets the fixed non-empty
localized error message and moves to the error state, and resetFromError
returns any state to welcome with every transient session field null. -/
theorem c4_error_state_and_reset (s : AppState) (rec : RecOutcome)
    (img : ImgOutcome) (mt : MealTime) (fp : FoodPreference)
    (hm : s.mealTime = some mt) (hf : s.foodPreference = some fp)
    (hfail : rec = RecOutcome.thrown ∨ rec = RecOutcome.ok []
      ∨ ∃ primary rest, rec = RecOutcome.ok (primary :: rest)
          ∧ img = ImgOutcome.thrown) :
    (handlePreferencesSubmit s rec img).step = AppStep.error
  ∧ (handlePreferencesSubmit s rec img).error = some submitErrorMessage
  ∧ submitErrorMessage ≠ ""
  ∧ ∀ t : AppState,
      (resetFromError t).step = AppStep.welcome
      ∧ (resetFromError t).weather = none
      ∧ (resetFromError t).mealTime = none
      ∧ (resetFromError t).foodPreference = none
      ∧ (resetFromError t).recommendations = none
      ∧ (resetFromError t).currentUserRating = none
      ∧ (resetFromError t).error = none := by
  have herr : (handlePreferencesSubmit s rec img).step = AppStep.error
      ∧ (handlePreferencesSubmit s rec img).error
          = some submitErrorMessage := by
    rcases hfail with rfl | rfl | ⟨primary, rest, rfl, rfl⟩ <;>
      simp [handlePreferencesSubmit, hm, hf]
  exact ⟨herr.1, herr.2, by decide,
    fun t => ⟨rfl, rfl, rfl, rfl, rfl, rfl, rfl⟩⟩

/-- C4 witness: a rejected recommendation call on a concrete submit-ready
state lands in the error state with the localized message set. -/
theorem c4_error_state_and_reset_witness :
    (handlePreferencesSubmit submitState RecOutcome.thrown
        (ImgOutcome.ok "u")).step = AppStep.error
  ∧ (handlePreferencesSubmit submitState RecOutcome.thrown
        (ImgOutcome.ok "u")).error = some submitErrorMessage := by
  have h := c4_error_state_and_reset submitState RecOutcome.thrown
    (ImgOutcome.ok "u") MealTime.lunch FoodPreference.spicy rfl rfl
    (Or.inl rfl)
  exact ⟨h.1, h.2.1⟩

/-- C5: getWeatherFromCoordinates is total — for every call outcome and
parse behaviour it returns a WeatherInfo; whenever the trimmed, fence-
stripped response parses to an object with one of the 6 valid condition
strings and a numeric temperature it returns that condition with the
temperature rounded, and on every other outcome it returns the fallback
value {cloudy, 20}. -/
theorem c5_weather_total_with_fallback (parse : String → Option Json)
    (outcome : ApiOutcome) :
    (getWeatherFromCoordinates parse outcome = fallbackWeather
      ∨ ∃ t j cond temp c, outcome = ApiOutcome.text t
          ∧ parse (stripJsonFence t.trim) = some j
          ∧ Json.get? j "condition" = some (Json.str cond)
          ∧ WeatherCondition.fromKorean? cond = some c
          ∧ Json.get? j "temperature" = some (Json.num temp)
          ∧ getWeatherFromCoordinates parse outcome
              = { condition := c, temperature := jsRound temp })
  ∧ (∀ t j cond temp c, outcome = ApiOutcome.text t →
       parse (stripJsonFence t.trim) = some j →
       Json.get? j "condition" = some (Json.str cond) →
       WeatherCondition.fromKorean? cond = some c →
       Json.get? j "temperature" = some (Json.num temp) →
       getWeatherFromCoordinates parse outcome
         = { condition := c, temperature := jsRound temp }) := by
  constructor
  · cases outcome with
    | thrown => exact Or.inl rfl
    | text t =>
      cases hp : parse (stripJsonFence t.trim) with
      | none => exact Or.inl (by simp [getWeatherFromCoordinates, hp])
      | some j =>
        cases hc : Json.get? j "condition" with
        | none => exact Or.inl (by simp [getWeatherFromCoordinates, hp, hc])
        | some cj =>
          cases ht : Json.get? j "temperature" with
          | none =>
            refine Or.inl ?_
            cases cj <;> simp [getWeatherFromCoordinates, hp, hc, ht]
          | some tj =>
            cases cj with
            | str cond =>
              cases tj with
              | num temp =>
                cases hk : WeatherCondition.fromKorean? cond with
                | none =>
                  exact Or.inl
                    (by simp [getWeatherFromCoordinates, hp, hc, ht, hk])
                | some c =>
                  exact Or.inr ⟨t, j, cond, temp, c, rfl, hp, hc, hk, ht,
                    by simp [getWeatherFromCoordinates, hp, hc, ht, hk]⟩
              | null => exact Or.inl (by simp [getWeatherFromCoordinates, hp, hc, ht])
              | bool b => exact Or.inl (by simp [getWeatherFromCoordinates, hp, hc, ht])
              | str s2 => exact Or.inl (by simp [getWeatherFromCoordinates, hp, hc, ht])
              | arr es => exact Or.inl (by simp [getWeatherFromCoordinates, hp, hc, ht])
              | obj fs => exact Or.inl (by simp [getWeatherFromCoordinates, hp, hc, ht])
            | null =>
              refine Or.inl ?_
              cases tj <;> simp [getWeatherFromCoordinates, hp, hc, ht]
            | bool b =>
              refine Or.inl ?_
              cases tj <;> simp [getWeatherFromCoordinates, hp, hc, ht]
            | num q =>
              refine Or.inl ?_
              cases tj <;> simp [getWeatherFromCoordinates, hp, hc, ht]
            | arr es =>
              refine Or.inl ?_
              cases tj <;> simp [getWeatherFromCoordinates, hp, hc, ht]
            | obj fs =>
              refine Or.inl ?_
              cases tj <;> simp [getWeatherFromCoordinates, hp, hc, ht]
  · intro t j cond temp c hout hp hc hk ht
    subst hout
    simp [getWeatherFromCoordinates, hp, hc, ht, hk]

/-- C7: the validation in getFoodRecommendation looks only at the first
array element: a parsed non-empty array whose first element passes the
shallow check is returned unchanged whatever the remaining elements are,
and a rejected call, an unparseable response, a response that is not a
non-empty array, or a failing first element all raise the same generic
failure. -/
theorem c7_first_element_only_validation (parse : String → Option Json)
    (outcome : ApiOutcome) :
    (∀ t x xs, outcome = ApiOutcome.text t →
       parse t = some (Json.arr (x :: xs)) → firstItemValid x = true →
       getFoodRecommendation parse outcome = Except.ok (x :: xs))
  ∧ (∀ t x xs, outcome = ApiOutcome.text t →
       parse t = some (Json.arr (x :: xs)) → firstItemValid x = false →
       getFoodRecommendation parse outcome
         = Except.error recommendationFailureMessage)
  ∧ (∀ t j, outcome = ApiOutcome.text t → parse t = some j →
       (∀ x xs, j ≠ Json.arr (x :: xs)) →
       getFoodRecommendation parse outcome
         = Except.error recommendationFailureMessage)
  ∧ (∀ t, outcome = ApiOutcome.text t → parse t = none →
       getFoodRecommendation parse outcome
         = Except.error recommendationFailureMessage)
  ∧ (outcome = ApiOutcome.thrown →
       getFoodRecommendation parse outcome
         = Except.error recommendationFailureMessage) := by
  refine ⟨?_, ?_, ?_, ?_, ?_⟩
  · rintro t x xs rfl hp hv
    simp [getFoodRecommendation, hp, hv]
  · rintro t x xs rfl hp hv
    simp [getFoodRecommendation, hp, hv]
  · rintro t j rfl hp hne
    cases j with
    | null => simp [getFoodRecommendation, hp]
    | bool b => simp [getFoodRecommendation, hp]
    | num q => simp [getFoodRecommendation, hp]
    | str s2 => simp [getFoodRecommendation, hp]
    | obj fs => simp [getFoodRecommendation, hp]
    | arr elems =>
      cases elems with
      | nil => simp [getFoodRecommendation, hp]
      | cons x xs => exact absurd rfl (hne x xs)
  · rintro t rfl hp
    simp [getFoodRecommendation, hp]
  · rintro rfl
    rfl

/-- C9: handleManualWeatherSelect always moves to preferences and stores
the selected condition with its fixed temperature: 30 for hot, 5 for cold,
-2 for snowy, 15 for rainy, and the default 20 for sunny and cloudy. -/
theorem c9_manual_weather_fixed_temperatures (s : AppState) :
    (∀ c, (handleManualWeatherSelect s c).step = AppStep.preferences)
  ∧ (handleManualWeatherSelect s WeatherCondition.hot).weather
      = some { condition := WeatherCondition.hot, temperature := 30 }
  ∧ (handleManualWeatherSelect s WeatherCondition.cold).weather
      = some { condition := WeatherCondition.cold, temperature := 5 }
  ∧ (handleManualWeatherSelect s WeatherCondition.snowy).weather
      = some { condition := WeatherCondition.snowy, temperature := -2 }
  ∧ (handleManualWeatherSelect s WeatherCondition.rainy).weather
      = some { condition := WeatherCondition.rainy, temperature := 15 }
  ∧ (handleManualWeatherSelect s WeatherCondition.sunny).weather
      = some { condition := WeatherCondition.sunny, temperature := 20 }
  ∧ (handleManualWeatherSelect s WeatherCondition.cloudy).weather
      = some { condition := WeatherCondition.cloudy, temperature := 20 } := by
  refine ⟨fun c => ?_, rfl, rfl, rfl, rfl, rfl, rfl⟩
  cases c <;> rfl

/-- C10: when the recommendation call succeeds with a non-empty list and
the image call then rejects, the flow ends in the error state with the
recommendations field unchanged while currentUserRating already holds the
first familiarity — the error path is not atomic over the session fields. -/
theorem c10_image_failure_keeps_rating (s : AppState)
    (primary : Recommendation) (rest : List Recommendation) (mt : MealTime)
    (fp : FoodPreference) (hm : s.mealTime = some mt)
    (hf : s.foodPreference = some fp) :
    (handlePreferencesSubmit s (RecOutcome.ok (primary :: rest))
        ImgOutcome.thrown).step = AppStep.error
  ∧ (handlePreferencesSubmit s (RecOutcome.ok (primary :: rest))
        ImgOutcome.thrown).recommendations = s.recommendations
  ∧ (handlePreferencesSubmit s (RecOutcome.ok (primary :: rest))
        ImgOutcome.thrown).currentUserRating = some primary.familiarity
  ∧ (handlePreferencesSubmit s (RecOutcome.ok (primary :: rest))
        ImgOutcome.thrown).error = some submitErrorMessage := by
  refine ⟨?_, ?_, ?_, ?_⟩ <;> simp [handlePreferencesSubmit, hm, hf]

/-- C10 witness: the concrete submit-ready state with a rejected image
call keeps the familiarity 4 of the first recommendation in
currentUserRating while landing in the error state. -/
theorem c10_image_failure_keeps_rating_witness :
    (handlePreferencesSubmit submitState
        (RecOutcome.ok [recBibimbap, recKimchi]) ImgOutcome.thrown).step
        = AppStep.error
  ∧ (handlePreferencesSubmit submitState
        (RecOutcome.ok [recBibimbap, recKimchi])
        ImgOutcome.thrown).currentUserRating = some 4 := by
  have h := c10_image_failure_keeps_rating submitState recBibimbap
    [recKimchi] MealTime.lunch FoodPreference.spicy rfl rfl
  exact ⟨h.1, h.2.2.1⟩

/-- C6: resetAndSaveRating in a result state stores the current rating
under exactly the first foodName, leaves every other familiarity entry
unchanged, and resets step and every transient session field. -/
theorem c6_save_rating_and_reset (s : AppState)
    (primary : FinalRecommendation) (rest : List FinalRecommendation)
    (rating : Int) (hr : s.recommendations = some (primary :: rest))
    (hc : s.currentUserRating = some rating) :
    (resetAndSaveRating s).familiarityRatings primary.foodName = some rating
  ∧ (∀ k, k ≠ primary.foodName →
       (resetAndSaveRating s).familiarityRatings k = s.familiarityRatings k)
  ∧ (resetAndSaveRating s).step = AppStep.welcome
  ∧ (resetAndSaveRating s).weather = none
  ∧ (resetAndSaveRating s).mealTime = none
  ∧ (resetAndSaveRating s).foodPreference = none
  ∧ (resetAndSaveRating s).recommendations = none
  ∧ (resetAndSaveRating s).currentUserRating = none
  ∧ (resetAndSaveRating s).error = none := by
  refine ⟨?_, ?_, rfl, rfl, rfl, rfl, rfl, rfl, rfl⟩
  · simp [resetAndSaveRating, hr, hc]
  · intro k hk
    simp [resetAndSaveRating, hr, hc, hk]

/-- C6 witness: saving rating 3 for the concrete result state records it
under the first foodName and returns to welcome. -/
theorem c6_save_rating_and_reset_witness :
    (resetAndSaveRating resultState).familiarityRatings "비빔밥" = some 3
  ∧ (resetAndSaveRating resultState).step = AppStep.welcome := by
  have h := c6_save_rating_and_reset resultState finalBibimbap [] 3 rfl rfl
  exact ⟨h.1, h.2.2.1⟩
